import Mathlib

/-!
Shallow embedding of the reconciliation core of the vSphere cluster-api
infrastructure provider: the VSphereVM lifecycle reconciler, the
IP-address-claim sub-reconciler, and the deployment-zone delete path,
translated from the Go controllers. Kubernetes client calls (Get / List /
CreateOrPatch / Update / Delete) are modelled by explicit finite stores plus
explicit error injection sites, so that every code path of the controllers is
reachable on concrete inputs.
-/

namespace CAPV

/-! ## Definitions: data model, library helpers, and the embedded controllers -/

/-- Condition severity, mirroring clusterv1.ConditionSeverity. -/
inductive ConditionSeverity where
  | sevError
  | sevWarning
  | sevInfo
  | sevNone
deriving Repr, DecidableEq

/-- One entry of a resource's status.conditions (type / status / reason /
severity / message; lastTransitionTime is not modelled). -/
structure Condition where
  condType : String
  status : Bool
  reason : String
  severity : ConditionSeverity
  message : String
deriving Repr, DecidableEq

/-- The body of a condition, without its type: what conditions.MarkTrue /
MarkFalse / SetAggregate / SetSummary compute before writing it under a fixed
condition type. -/
structure BCondition where
  status : Bool
  reason : String
  severity : ConditionSeverity
  message : String
deriving Repr, DecidableEq

/-- conditions.Get: first condition of the given type. -/
def getCondition : List Condition → String → Option Condition
  | [], _ => none
  | c :: rest, t => if c.condType = t then some c else getCondition rest t

/-- conditions.Set: replace the condition of the same type in place, or
append it (ordering refinements of the library are not modelled). -/
def setCondition : List Condition → Condition → List Condition
  | [], c => [c]
  | d :: rest, c => if d.condType = c.condType then c :: rest else d :: setCondition rest c

/-- conditions.Has: is a condition of the given type present. -/
def hasCondition (l : List Condition) (t : String) : Bool :=
  (getCondition l t).isSome

/-- Owner reference (APIVersion / Kind / Name / UID). -/
structure OwnerRef where
  apiVersion : String
  kind : String
  name : String
  uid : String
deriving Repr, DecidableEq

/-- clusterutilv1 owner-ref matching: same APIVersion, Kind and Name
(UID is not part of the identity). -/
def sameOwner (a b : OwnerRef) : Bool :=
  a.apiVersion == b.apiVersion && a.kind == b.kind && a.name == b.name

/-- clusterutilv1.EnsureOwnerRef: replace a matching reference, else append. -/
def ensureOwnerRef : List OwnerRef → OwnerRef → List OwnerRef
  | [], r => [r]
  | o :: rest, r => if sameOwner o r then r :: rest else o :: ensureOwnerRef rest r

/-- clusterutilv1.RemoveOwnerRef: drop every matching reference. -/
def removeOwnerRef (l : List OwnerRef) (r : OwnerRef) : List OwnerRef :=
  l.filter (fun o => ¬ sameOwner o r)

/-- ctrlutil.ContainsFinalizer. -/
def containsFinalizer (l : List String) (f : String) : Bool := l.contains f

/-- ctrlutil.AddFinalizer: append if absent. -/
def addFinalizer (l : List String) (f : String) : List String :=
  if l.contains f then l else l ++ [f]

/-- ctrlutil.RemoveFinalizer: drop every occurrence. -/
def removeFinalizer (l : List String) (f : String) : List String :=
  l.filter (fun x => x ≠ f)

/-- Label map as an association list (first binding wins). -/
def getLabel : List (String × String) → String → Option String
  | [], _ => none
  | (k, v) :: rest, n => if k = n then some v else getLabel rest n

/-- Write one label, replacing the first binding of the key or appending. -/
def setLabel : List (String × String) → String → String → List (String × String)
  | [], n, v => [(n, v)]
  | (k, w) :: rest, n, v => if k = n then (n, v) :: rest else (k, w) :: setLabel rest n v

/-- The cluster-name label key of clusterv1. The string values of the label,
finalizer, condition-type and reason constants below live in the provider API
package; only their identity (equality / distinctness) matters here. -/
def clusterNameLabel : String := "cluster.x-k8s.io/cluster-name"

def VMFinalizer : String := "vspherevm.infrastructure.cluster.x-k8s.io"

def IPAddressClaimFinalizer : String :=
  "vspherevm.infrastructure.cluster.x-k8s.io/ip-claim-protection"

def DeploymentZoneFinalizer : String :=
  "vspheredeploymentzone.infrastructure.cluster.x-k8s.io"

def infraAPIVersion : String := "infrastructure.cluster.x-k8s.io/v1beta1"

def VCenterAvailableCondition : String := "VCenterAvailable"

def IPAddressClaimedCondition : String := "IPAddressClaimed"

def VMProvisionedCondition : String := "VMProvisioned"

def ReadyConditionType : String := "Ready"

def WaitingForStaticIPAllocationReason : String := "WaitingForStaticIPAllocation"

def WaitingForIPAllocationReason : String := "WaitingForIPAllocation"

def IPAddressClaimNotFoundReason : String := "IPAddressClaimNotFound"

def IPAddressClaimsBeingCreatedReason : String := "IPAddressClaimsBeingCreated"

def WaitingForIPAddressReason : String := "WaitingForIPAddress"

def DeletingReason : String := "Deleting"

/-- Reference to an externally managed address pool
(corev1.TypedLocalObjectReference / ipamv1 pool ref). -/
structure PoolRef where
  apiGroup : String
  kind : String
  name : String
deriving Repr, DecidableEq

/-- infrav1.NetworkDeviceSpec, restricted to the fields the reconcilers read. -/
structure NetworkDeviceSpec where
  dhcp4 : Bool
  dhcp6 : Bool
  ipAddrs : List String
  addressesFromPools : List PoolRef
deriving Repr, DecidableEq

/-- infrav1.NetworkStatus, restricted to the address list. -/
structure NetworkStatus where
  ipAddrs : List String
deriving Repr, DecidableEq

/-- VSphereVM.Spec, restricted to the fields the reconcilers read or write. -/
structure VSphereVMSpec where
  biosUUID : String
  network : List NetworkDeviceSpec
deriving Repr, DecidableEq

/-- VSphereVM.Status, restricted to the fields the reconcilers read or write. -/
structure VSphereVMStatus where
  vmRef : String
  ready : Bool
  network : List NetworkStatus
  addresses : List String
  failureReason : Option String
  failureMessage : Option String
deriving Repr, DecidableEq

/-- The VSphereVM resource. `deletionTimestampIsZero` models
ObjectMeta.DeletionTimestamp.IsZero(); `ns` is the namespace. -/
structure VSphereVM where
  name : String
  ns : String
  uid : String
  labels : List (String × String)
  finalizers : List String
  deletionTimestampIsZero : Bool
  spec : VSphereVMSpec
  status : VSphereVMStatus
  conditions : List Condition
deriving Repr, DecidableEq

/-- Backend-observed VM lifecycle state (infrav1.VirtualMachineState). -/
inductive VirtualMachineState where
  | notFound
  | pending
  | provisioning
  | ready
deriving Repr, DecidableEq

/-- The backend-observed VM returned by VMService.ReconcileVM / DestroyVM. -/
structure VirtualMachine where
  name : String
  biosUUID : String
  vmRef : String
  state : VirtualMachineState
  network : List NetworkStatus
deriving Repr, DecidableEq

/-- reconcile.Result: requeue flag and RequeueAfter (in seconds). -/
structure RResult where
  requeue : Bool
  requeueAfter : Nat
deriving Repr, DecidableEq

/-- result.IsZero(). -/
def RResult.isZero (r : RResult) : Bool := !r.requeue && r.requeueAfter == 0

/-- The zero reconcile.Result{}. -/
def RResult.zero : RResult := ⟨false, 0⟩

/-- ipamv1.IPAddressClaim, restricted to the fields the reconcilers touch.
`addressRefName` is Status.AddressRef.Name, owned by the external allocator. -/
structure IPAddressClaim where
  name : String
  ns : String
  ownerReferences : List OwnerRef
  finalizers : List String
  labels : List (String × String)
  poolRef : PoolRef
  addressRefName : String
  conditions : List Condition
deriving Repr, DecidableEq

/-- Keyed store of IPAddressClaim objects (the API server's view), with
explicit error-injection sites for Get, CreateOrPatch and Update calls so
that every error branch of the controllers is reachable. -/
structure ClaimClient where
  store : List (String × IPAddressClaim)
  getErrors : List String
  patchErrors : List String
  updateErrors : List String
deriving Repr, DecidableEq

/-- Lookup by claim name (first binding wins). -/
def lookupStore : List (String × IPAddressClaim) → String → Option IPAddressClaim
  | [], _ => none
  | (k, v) :: rest, n => if k = n then some v else lookupStore rest n

/-- Write a claim: replace the first binding of the name, or append. -/
def putStore : List (String × IPAddressClaim) → String → IPAddressClaim →
    List (String × IPAddressClaim)
  | [], n, c => [(n, c)]
  | (k, v) :: rest, n, c => if k = n then (n, c) :: rest else (k, v) :: putStore rest n c

/-- Numbered enumeration of a list, first index `n`. -/
def enumFrom : Nat → List α → List (Nat × α)
  | _, [] => []
  | n, x :: xs => (n, x) :: enumFrom (n + 1) xs

/-- Write a condition of the given type on the VM (conditions.Set). -/
def setVMCondition (vm : VSphereVM) (t : String) (b : BCondition) : VSphereVM :=
  { vm with conditions := setCondition vm.conditions ⟨t, b.status, b.reason, b.severity, b.message⟩ }

/-- conditions.MarkTrue on the VM. -/
def markTrueVM (vm : VSphereVM) (t : String) : VSphereVM :=
  setVMCondition vm t ⟨true, "", ConditionSeverity.sevNone, ""⟩

/-- conditions.MarkFalse on the VM. -/
def markFalseVM (vm : VSphereVM) (t reason : String) (sev : ConditionSeverity)
    (msg : String) : VSphereVM :=
  setVMCondition vm t ⟨false, reason, sev, msg⟩

/-- util.IPAddressClaimName: deterministic claim name from
(VM name, device index, pool-reference index). -/
def ipAddressClaimName (vmName : String) (devIdx poolRefIdx : Nat) : String :=
  vmName ++ "-" ++ Nat.repr devIdx ++ "-" ++ Nat.repr poolRefIdx

/-- The mutate function passed by createOrPatchIPAddressClaim to
ctrlutil.CreateOrPatch: ensure the VM owner reference, the claim-protection
finalizer, the cluster-name label, and the pool reference. -/
def mutateIPAddressClaim (vm : VSphereVM) (poolRef : PoolRef)
    (claim : IPAddressClaim) : IPAddressClaim :=
  { claim with
    ownerReferences := ensureOwnerRef claim.ownerReferences
      ⟨infraAPIVersion, "VSphereVM", vm.name, vm.uid⟩,
    finalizers := addFinalizer claim.finalizers IPAddressClaimFinalizer,
    labels := setLabel claim.labels clusterNameLabel
      ((getLabel vm.labels clusterNameLabel).getD ""),
    poolRef := poolRef }

/-- A fresh IPAddressClaim object as constructed before CreateOrPatch
(only name and namespace populated). -/
def freshClaim (name ns : String) : IPAddressClaim :=
  ⟨name, ns, [], [], [], ⟨"", "", ""⟩, "", []⟩

/-- createOrPatchIPAddressClaim: CreateOrPatch of the named claim with
`mutateIPAddressClaim`. Returns the resulting claim, whether it was created
this cycle, and the updated store. Errors of the underlying CreateOrPatch call
are injected through `client.patchErrors`. -/
def createOrPatchIPAddressClaim (client : ClaimClient) (vm : VSphereVM)
    (name : String) (poolRef : PoolRef) :
    Except String (ClaimClient × IPAddressClaim × Bool) :=
  if name ∈ client.patchErrors then
    Except.error ("failed to CreateOrPatch IPAddressClaim " ++ name)
  else
    match lookupStore client.store name with
    | none =>
      let c := mutateIPAddressClaim vm poolRef (freshClaim name vm.ns)
      Except.ok ({ client with store := putStore client.store name c }, c, true)
    | some c0 =>
      let c := mutateIPAddressClaim vm poolRef c0
      Except.ok ({ client with store := putStore client.store name c }, c, false)

/-- The (device index, pool-reference index, pool reference) triples of the
VM's spec, in the nested-loop order of the reconciler. -/
def claimPairs (vm : VSphereVM) : List (Nat × Nat × PoolRef) :=
  (enumFrom 0 vm.spec.network).flatMap fun dp =>
    (enumFrom 0 dp.2.addressesFromPools).map fun pp => (dp.1, pp.1, pp.2)

/-- Running counters of the claim loop of reconcileIPAddressClaims. -/
structure ClaimLoopState where
  totalClaims : Nat
  claimsCreated : Nat
  claimsFulfilled : Nat
  claims : List IPAddressClaim
  errList : List String
  client : ClaimClient
deriving Repr, DecidableEq

/-- The body of the nested device/pool loop of reconcileIPAddressClaims.
A Get transport failure (injected through `getErrors`) aborts the loop with a
hard error; a CreateOrPatch failure is appended to `errList` and the loop
continues; otherwise the created / fulfilled / Ready-condition counters are
updated. -/
def runClaimLoop (vm : VSphereVM) :
    List (Nat × Nat × PoolRef) → ClaimLoopState → ClaimLoopState × Option String
  | [], st => (st, none)
  | p :: rest, st =>
    let name := ipAddressClaimName vm.name p.1 p.2.1
    let st := { st with totalClaims := st.totalClaims + 1 }
    if name ∈ st.client.getErrors then
      (st, some ("fetching IPAddressClaim failed: " ++ name))
    else
      match createOrPatchIPAddressClaim st.client vm name p.2.2 with
      | Except.error e => runClaimLoop vm rest { st with errList := st.errList ++ [e] }
      | Except.ok (client', claim, created) =>
        runClaimLoop vm rest
          { st with
            client := client',
            claimsCreated := if created then st.claimsCreated + 1 else st.claimsCreated,
            claimsFulfilled :=
              if claim.addressRefName ≠ "" then st.claimsFulfilled + 1 else st.claimsFulfilled,
            claims :=
              if hasCondition claim.conditions ReadyConditionType
              then st.claims ++ [claim] else st.claims }

/-- The claim loop evaluated on the VM's device/pool pairs from zeroed
counters. -/
def claimLoopResult (client : ClaimClient) (vm : VSphereVM) :
    ClaimLoopState × Option String :=
  runClaimLoop vm (claimPairs vm) ⟨0, 0, 0, [], [], client⟩

/-- The message "a/b" ++ suffix used by the fallback condition classification. -/
def fractionMsg (a b : Nat) (suffix : String) : String :=
  Nat.repr a ++ "/" ++ Nat.repr b ++ suffix

/-- reconcileIPAddressClaims: run the claim loop, then derive the
IPAddressClaimed condition. `aggregateFn` stands for the body computed by
conditions.SetAggregate (external library) when every claim reports a Ready
condition; it only ever writes the IPAddressClaimed condition, as the library
call does. Returns the updated VM, the updated store, and the error. -/
def reconcileIPAddressClaims (aggregateFn : List IPAddressClaim → BCondition)
    (client : ClaimClient) (vm : VSphereVM) :
    VSphereVM × ClaimClient × Option String :=
  match claimLoopResult client vm with
  | (st, some e) => (vm, st.client, some e)
  | (st, none) =>
    if st.errList ≠ [] then
      let msg := String.intercalate ", " st.errList
      (markFalseVM vm IPAddressClaimedCondition IPAddressClaimNotFoundReason
        ConditionSeverity.sevError msg, st.client, some msg)
    else if st.claims.length = st.totalClaims then
      (setVMCondition vm IPAddressClaimedCondition (aggregateFn st.claims), st.client, none)
    else if st.totalClaims = st.claimsFulfilled then
      (markTrueVM vm IPAddressClaimedCondition, st.client, none)
    else if st.claimsFulfilled < st.totalClaims ∧ st.claimsCreated > 0 then
      (markFalseVM vm IPAddressClaimedCondition IPAddressClaimsBeingCreatedReason
        ConditionSeverity.sevInfo
        (fractionMsg st.claimsCreated st.totalClaims " claims being created"),
       st.client, none)
    else if st.claimsFulfilled < st.totalClaims ∧ st.claimsCreated = 0 then
      (markFalseVM vm IPAddressClaimedCondition WaitingForIPAddressReason
        ConditionSeverity.sevInfo
        (fractionMsg (st.totalClaims - st.claimsFulfilled) st.totalClaims
          " claims being processed"),
       st.client, none)
    else (vm, st.client, none)

/-- The claim names addressed by the delete loop, in loop order. -/
def claimNames (vm : VSphereVM) : List String :=
  (claimPairs vm).map fun p => ipAddressClaimName vm.name p.1 p.2.1

/-- The body of deleteIPAddressClaims: for each claim name, a not-found Get is
skipped; a Get transport failure aborts with an error; a claim still carrying
the claim-protection finalizer has it removed and is updated (an Update
failure aborts with an error); a claim without the finalizer triggers no
write. Returns the updated store, the names written, and the error. -/
def deleteClaimsLoop (client : ClaimClient) :
    List String → ClaimClient × List String × Option String
  | [] => (client, [], none)
  | name :: rest =>
    if name ∈ client.getErrors then
      (client, [], some ("failed to find IPAddressClaim " ++ name))
    else
      match lookupStore client.store name with
      | none => deleteClaimsLoop client rest
      | some claim =>
        if IPAddressClaimFinalizer ∈ claim.finalizers then
          if name ∈ client.updateErrors then
            (client, [], some ("failed to update IPAddressClaim " ++ name))
          else
            let claim' := { claim with
              finalizers := removeFinalizer claim.finalizers IPAddressClaimFinalizer }
            let client' := { client with store := putStore client.store name claim' }
            let r := deleteClaimsLoop client' rest
            (r.1, name :: r.2.1, r.2.2)
        else deleteClaimsLoop client rest

/-- deleteIPAddressClaims: release the VM's address claims by clearing their
finalizer. -/
def deleteIPAddressClaims (client : ClaimClient) (vm : VSphereVM) :
    ClaimClient × List String × Option String :=
  deleteClaimsLoop client (claimNames vm)

/-- isWaitingForStaticIPAllocation: true when some network device has neither
DHCP nor a static address nor a pool reference. -/
def isWaitingForStaticIPAllocation (vm : VSphereVM) : Bool :=
  vm.spec.network.any fun dev =>
    !dev.dhcp4 && !dev.dhcp6 && dev.ipAddrs.isEmpty && dev.addressesFromPools.isEmpty

/-- reconcileNetwork: copy the backend's per-device network status into
status and flatten the per-device address lists into status.addresses. -/
def reconcileNetwork (vm : VSphereVM) (o : VirtualMachine) : VSphereVM :=
  { vm with status :=
    { vm.status with
      network := o.network,
      addresses := (o.network.map NetworkStatus.ipAddrs).flatten } }

/-- reconcileNormal: the normal-path body of the VM reconciler.
`rvmResult` is the outcome of VMService.ReconcileVM; `aggregateFn` is the
SetAggregate body as in `reconcileIPAddressClaims`. Returns the resulting VM
(the in-memory object flushed by the patch-on-exit), the claim store, the
reconcile.Result and the error. -/
def reconcileNormal (aggregateFn : List IPAddressClaim → BCondition)
    (client : ClaimClient) (rvmResult : Except String VirtualMachine)
    (vm : VSphereVM) : VSphereVM × ClaimClient × RResult × Option String :=
  if vm.status.failureReason.isSome || vm.status.failureMessage.isSome then
    (vm, client, RResult.zero, none)
  else if isWaitingForStaticIPAllocation vm then
    (markFalseVM vm VMProvisionedCondition WaitingForStaticIPAllocationReason
      ConditionSeverity.sevInfo "", client, RResult.zero, none)
  else
    match reconcileIPAddressClaims aggregateFn client vm with
    | (vm1, c1, some e) => (vm1, c1, RResult.zero, some e)
    | (vm1, c1, none) =>
      match rvmResult with
      | Except.error e => (vm1, c1, RResult.zero, some ("failed to reconcile VM: " ++ e))
      | Except.ok o =>
        if o.state ≠ VirtualMachineState.ready then (vm1, c1, RResult.zero, none)
        else if o.biosUUID ≠ "" then
          let vm2 := { vm1 with spec := { vm1.spec with biosUUID := o.biosUUID } }
          let vm3 :=
            if o.vmRef ≠ "" ∧ vm2.status.vmRef = "" then
              { vm2 with status := { vm2.status with vmRef := o.vmRef } }
            else vm2
          let vm4 := reconcileNetwork vm3 o
          if vm4.status.addresses.length = 0 then
            (markFalseVM vm4 VMProvisionedCondition WaitingForIPAllocationReason
              ConditionSeverity.sevInfo "", c1, ⟨false, 10⟩, none)
          else
            (markTrueVM { vm4 with status := { vm4.status with ready := true } }
              VMProvisionedCondition, c1, RResult.zero, none)
        else (vm1, c1, RResult.zero, some "bios uuid is empty while VM is ready")

/-- Remove the VM controller's finalizer from the VM. -/
def removeVMFinalizer (vm : VSphereVM) : VSphereVM :=
  { vm with finalizers := removeFinalizer vm.finalizers VMFinalizer }

/-- reconcileDelete: the delete-path body of the VM reconciler.
`destroyResult` is the outcome of VMService.DestroyVM (a requeue result plus
the observed VM); `deleteNodeResult` is the outcome of the best-effort node
deletion (its error is logged and ignored; a non-zero result requeues). -/
def reconcileDelete (destroyResult : Except String (RResult × VirtualMachine))
    (deleteNodeResult : RResult × Option String) (client : ClaimClient)
    (vm : VSphereVM) : VSphereVM × ClaimClient × RResult × Option String :=
  let vm1 := markFalseVM vm VMProvisionedCondition DeletingReason
    ConditionSeverity.sevInfo ""
  match destroyResult with
  | Except.error e =>
    (markFalseVM vm1 VMProvisionedCondition "DeletionFailed"
      ConditionSeverity.sevWarning e, client, RResult.zero,
     some ("failed to destroy VM: " ++ e))
  | Except.ok (result, o) =>
    if ¬ result.isZero then (vm1, client, result, none)
    else if o.state ≠ VirtualMachineState.notFound then (vm1, client, RResult.zero, none)
    else
      if ¬ deleteNodeResult.1.isZero then (vm1, client, deleteNodeResult.1, none)
      else
        match deleteIPAddressClaims client vm1 with
        | (client', _, some e) => (vm1, client', RResult.zero, some e)
        | (client', _, none) => (removeVMFinalizer vm1, client', RResult.zero, none)

/-- The collaborator outcomes and library parameters one VM reconcile depends
on. `sessionError` is the outcome of retrieveVcenterSession; the Found flags
are the outcomes of the owner / cluster lookups; `summaryFn` is the body of
the summary Ready condition computed by conditions.SetSummary on the deferred
patch (external library: it only ever writes the summary condition). -/
structure VMReconcileDeps where
  sessionError : Option String
  ownerVSphereMachineFound : Bool
  vsphereClusterFound : Bool
  ownerMachineFound : Bool
  machineFailureDomain : Option String
  failureDomainLookupError : Option String
  clusterFound : Bool
  clusterPaused : Bool
  nodeAntiAffinityEnabled : Bool
  clusterModuleInfoError : Option String
  claimClient : ClaimClient
  aggregateFn : List IPAddressClaim → BCondition
  summaryFn : List Condition → BCondition
  reconcileVMResult : Except String VirtualMachine
  destroyResult : Except String (RResult × VirtualMachine)
  deleteNodeResult : RResult × Option String

/-- The deferred patch-on-exit: conditions.SetSummary writes the summary
Ready condition before the resource is patched back. -/
def applySummary (summaryFn : List Condition → BCondition) (vm : VSphereVM) : VSphereVM :=
  setVMCondition vm ReadyConditionType (summaryFn vm.conditions)

/-- vmReconciler.reconcile: the cluster-module feature gate, then dispatch to
the delete path or the normal path. -/
def reconcileStep (deps : VMReconcileDeps) (vm : VSphereVM) :
    VSphereVM × ClaimClient × RResult × Option String :=
  if deps.nodeAntiAffinityEnabled ∧ deps.clusterModuleInfoError.isSome ∧
      vm.deletionTimestampIsZero then
    (vm, deps.claimClient, RResult.zero, deps.clusterModuleInfoError)
  else if ¬ vm.deletionTimestampIsZero then
    reconcileDelete deps.destroyResult deps.deleteNodeResult deps.claimClient vm
  else
    reconcileNormal deps.aggregateFn deps.claimClient deps.reconcileVMResult vm

/-- vmReconciler.Reconcile. `vmLookup` is the Get of the VSphereVM (absent
resource: success, nothing to do). The returned VSphereVM is the state
persisted by the patch-on-exit: early returns taken before the patch defer is
registered (session failure, missing owners, failure-domain lookup failure)
leave the stored object unchanged, because their in-memory condition
mutations are never flushed. -/
def Reconcile (deps : VMReconcileDeps) (vmLookup : Option VSphereVM) :
    Option VSphereVM × ClaimClient × RResult × Option String :=
  match vmLookup with
  | none => (none, deps.claimClient, RResult.zero, none)
  | some vm0 =>
    match deps.sessionError with
    | some e => (some vm0, deps.claimClient, RResult.zero, some e)
    | none =>
      if ¬ deps.ownerVSphereMachineFound then (some vm0, deps.claimClient, RResult.zero, none)
      else if ¬ deps.vsphereClusterFound then (some vm0, deps.claimClient, RResult.zero, none)
      else if ¬ deps.ownerMachineFound then (some vm0, deps.claimClient, RResult.zero, none)
      else if deps.machineFailureDomain.isSome ∧ deps.failureDomainLookupError.isSome then
        (some vm0, deps.claimClient, RResult.zero, deps.failureDomainLookupError)
      else
        -- the patch-on-exit defer is registered here; every return below
        -- flushes the in-memory object with the summary condition applied
        let vm1 := markTrueVM vm0 VCenterAvailableCondition
        if deps.clusterFound ∧ deps.clusterPaused then
          (some (applySummary deps.summaryFn vm1), deps.claimClient, RResult.zero, none)
        else if vm1.deletionTimestampIsZero ∧ ¬ containsFinalizer vm1.finalizers VMFinalizer then
          (some (applySummary deps.summaryFn
            { vm1 with finalizers := addFinalizer vm1.finalizers VMFinalizer }),
           deps.claimClient, RResult.zero, none)
        else
          let r := reconcileStep deps vm1
          (some (applySummary deps.summaryFn r.1), r.2.1, r.2.2.1, r.2.2.2)

/-- The cluster fields consulted by annotations.IsPaused: spec.paused and the
paused annotation. -/
structure Cluster where
  name : String
  specPaused : Bool
  annPaused : Bool
deriving Repr, DecidableEq

/-- annotations.IsPaused(cluster, cluster): spec.paused or the paused
annotation on the same object. -/
def isPaused (c : Cluster) : Bool := c.specPaused || c.annPaused

/-- The UpdateFunc of the clusterv1.Cluster watch predicate: pass the event
iff the new cluster is not paused (the old object is not consulted). -/
def clusterUpdatePred (oldCluster newCluster : Cluster) : Bool :=
  let _ := oldCluster
  !(isPaused newCluster)

/-- The CreateFunc of the clusterv1.Cluster watch predicate: pass the event
iff the cluster is paused. -/
def clusterCreatePred (c : Cluster) : Bool := isPaused c

/-- clusterToVSphereVMs: the reconcile keys (namespace, name) of every
VSphereVM carrying the cluster-name label of the given cluster. -/
def clusterToVSphereVMs (vms : List VSphereVM) (clusterName : String) :
    List (String × String) :=
  (vms.filter fun v => getLabel v.labels clusterNameLabel = some clusterName).map
    fun v => (v.ns, v.name)

/-- The keys enqueued for one cluster update event: the mapper runs only when
the watch predicate passes the event. -/
def clusterWatchUpdateKeys (vms : List VSphereVM) (oldCluster newCluster : Cluster) :
    List (String × String) :=
  if clusterUpdatePred oldCluster newCluster then clusterToVSphereVMs vms newCluster.name
  else []

/-- clusterv1.Machine, restricted to what the zone delete guard reads.
`isActive` models the collections.ActiveMachines filter (external library:
machine not being deleted). -/
structure Machine where
  name : String
  failureDomain : Option String
  isActive : Bool
deriving Repr, DecidableEq

/-- The shared VSphereFailureDomain object. -/
structure VSphereFailureDomain where
  name : String
  ownerReferences : List OwnerRef
deriving Repr, DecidableEq

/-- The VSphereDeploymentZone resource, restricted to what the delete path
reads. `kindName` is TypeMeta.Kind as used when removing the owner
reference. -/
structure VSphereDeploymentZone where
  name : String
  kindName : String
  specFailureDomain : String
  finalizers : List String
deriving Repr, DecidableEq

/-- The filter of the zone delete guard: active machines whose
spec.failureDomain equals the zone's name. -/
def machinesUsingDeploymentZone (machines : List Machine) (zoneName : String) :
    List Machine :=
  machines.filter fun m =>
    m.isActive && (match m.failureDomain with
      | some fd => fd == zoneName
      | none => false)

/-- The owner reference the zone removes from its failure domain. -/
def zoneOwnerRef (zone : VSphereDeploymentZone) : OwnerRef :=
  ⟨infraAPIVersion, zone.kindName, zone.name, ""⟩

/-- Errors of the zone delete path, as structured data (the machines-in-use
error carries the names of the blocking machines, as produced through
util.MachinesAsString). -/
inductive ZoneDeleteError where
  | listMachinesFailed (msg : String)
  | machinesInUse (zoneName : String) (names : List String)
  | fdGetFailed (msg : String)
  | patchFailed (msg : String)
  | deleteFailed (msg : String)
deriving Repr, DecidableEq

/-- The collaborator outcomes one zone delete reconcile depends on: the
machine list, the failure-domain Get (absent = not-found), and error
injection for the List / Get / Patch / Delete calls. -/
structure ZoneClient where
  machines : List Machine
  machinesListError : Option String
  fd : Option VSphereFailureDomain
  fdGetError : Option String
  fdPatchError : Option String
  fdDeleteError : Option String
deriving Repr, DecidableEq

/-- Outcome of one zone delete reconcile: the zone, the stored failure domain
afterwards (none when deleted or absent), whether it was physically deleted,
and the error. -/
structure ZoneDeleteResult where
  zone : VSphereDeploymentZone
  fd : Option VSphereFailureDomain
  fdDeleted : Bool
  error : Option ZoneDeleteError
deriving Repr, DecidableEq

/-- Remove the zone controller's finalizer from the zone. -/
def removeZoneFinalizer (zone : VSphereDeploymentZone) : VSphereDeploymentZone :=
  { zone with finalizers := removeFinalizer zone.finalizers DeploymentZoneFinalizer }

/-- vsphereDeploymentZoneReconciler.reconcileDelete: refuse while active
machines reference the zone; treat a not-found failure domain as success and
remove the finalizer; otherwise remove the zone's owner reference from the
failure domain, physically delete the failure domain only once its
owner-reference set is empty, and remove the finalizer. -/
def zoneReconcileDelete (client : ZoneClient) (zone : VSphereDeploymentZone) :
    ZoneDeleteResult :=
  match client.machinesListError with
  | some e => ⟨zone, client.fd, false, some (ZoneDeleteError.listMachinesFailed e)⟩
  | none =>
    let blocking := machinesUsingDeploymentZone client.machines zone.name
    if blocking ≠ [] then
      ⟨zone, client.fd, false,
        some (ZoneDeleteError.machinesInUse zone.name (blocking.map Machine.name))⟩
    else
      match client.fdGetError with
      | some e => ⟨zone, client.fd, false, some (ZoneDeleteError.fdGetFailed e)⟩
      | none =>
        match client.fd with
        | none => ⟨removeZoneFinalizer zone, none, false, none⟩
        | some fd0 =>
          match client.fdPatchError with
          | some e => ⟨zone, some fd0, false, some (ZoneDeleteError.patchFailed e)⟩
          | none =>
            let fd1 := { fd0 with
              ownerReferences := removeOwnerRef fd0.ownerReferences (zoneOwnerRef zone) }
            if fd1.ownerReferences = [] then
              match client.fdDeleteError with
              | some e => ⟨zone, some fd1, false, some (ZoneDeleteError.deleteFailed e)⟩
              | none => ⟨removeZoneFinalizer zone, none, true, none⟩
            else ⟨removeZoneFinalizer zone, some fd1, false, none⟩

/-- Frame of the claim sub-reconciler on the VM: everything but the
IPAddressClaimed condition is preserved. -/
def vmFrameP (vm w : VSphereVM) : Prop :=
  w.spec = vm.spec ∧ w.status = vm.status ∧ w.finalizers = vm.finalizers ∧
  w.deletionTimestampIsZero = vm.deletionTimestampIsZero ∧
  ∀ t, t ≠ IPAddressClaimedCondition →
    getCondition w.conditions t = getCondition vm.conditions t

/-- A VSphereVM labelled for cluster `c1`, used as a concrete input. -/
def vmLabelled : VSphereVM :=
  { name := "vm-1", ns := "default", uid := "u-1",
    labels := [(clusterNameLabel, "c1")], finalizers := [VMFinalizer],
    deletionTimestampIsZero := true,
    spec := { biosUUID := "", network := [⟨true, false, [], []⟩] },
    status := { vmRef := "", ready := false, network := [], addresses := [],
                failureReason := none, failureMessage := none },
    conditions := [] }

/-- An unpaused cluster named `c1`. -/
def clusterUnpaused : Cluster := ⟨"c1", false, false⟩

/-- A stored claim with an allocator-resolved address, a Ready condition, a
foreign label and a foreign owner reference, used as a concrete input. -/
def claimResolved : IPAddressClaim :=
  { name := "vm-1-0-0", ns := "default",
    ownerReferences := [⟨"ipam.x/v1", "IPPool", "pool-1", "pu"⟩],
    finalizers := [],
    labels := [("team", "net")],
    poolRef := ⟨"ipam.x", "IPPool", "pool-1"⟩,
    addressRefName := "vm-1-0-0-address",
    conditions := [⟨ReadyConditionType, true, "", ConditionSeverity.sevNone, ""⟩] }

/-- A client whose store holds `claimResolved` and injects no errors. -/
def clientWithClaim : ClaimClient := ⟨[("vm-1-0-0", claimResolved)], [], [], []⟩

/-- A zone carrying the controller finalizer, used as a concrete input. -/
def zoneZ1 : VSphereDeploymentZone :=
  ⟨"z1", "VSphereDeploymentZone", "fd-1", [DeploymentZoneFinalizer]⟩

/-- A zone client with no machines and no stored failure domain. -/
def zoneClientNoFD : ZoneClient := ⟨[], none, none, none, none, none⟩

/-- A trivial SetAggregate body, used to instantiate the library parameter on
concrete inputs. -/
def trivAgg : List IPAddressClaim → BCondition :=
  fun _ => ⟨true, "", ConditionSeverity.sevNone, ""⟩

/-- A claim client with an empty store and no injected errors. -/
def emptyClaimClient : ClaimClient := ⟨[], [], [], []⟩

/-- The backend reporting Ready with an empty hardware id. -/
def oReadyEmptyUUID : VirtualMachine :=
  ⟨"vm-1", "", "vm-ref-1", VirtualMachineState.ready, [⟨["10.0.0.5"]⟩]⟩

/-- A VM whose spec hardware id is already populated with "uuid-A". -/
def vmWithUUID : VSphereVM :=
  { name := "vm-1", ns := "default", uid := "u-1",
    labels := [(clusterNameLabel, "c1")], finalizers := [VMFinalizer],
    deletionTimestampIsZero := true,
    spec := { biosUUID := "uuid-A", network := [⟨true, false, [], []⟩] },
    status := { vmRef := "vm-ref-1", ready := true, network := [], addresses := [],
                failureReason := none, failureMessage := none },
    conditions := [] }

/-- The backend reporting Ready with a different non-empty hardware id. -/
def oReadyOtherUUID : VirtualMachine :=
  ⟨"vm-1", "uuid-B", "vm-ref-1", VirtualMachineState.ready, [⟨["10.0.0.5"]⟩]⟩

/-- Two distinct address pools. -/
def poolA : PoolRef := ⟨"ipam.x", "IPPool", "pool-a"⟩

/-- See `poolA`. -/
def poolB : PoolRef := ⟨"ipam.x", "IPPool", "pool-b"⟩

/-- A VM whose single device requests addresses from two pools. -/
def vmPools : VSphereVM :=
  { name := "vm-1", ns := "default", uid := "u-1",
    labels := [(clusterNameLabel, "c1")], finalizers := [VMFinalizer],
    deletionTimestampIsZero := true,
    spec := { biosUUID := "", network := [⟨false, false, [], [poolA, poolB]⟩] },
    status := { vmRef := "", ready := false, network := [], addresses := [],
                failureReason := none, failureMessage := none },
    conditions := [] }

/-- A store holding one fulfilled claim for the first pool; the second claim
does not exist yet. -/
def clientC4 : ClaimClient := ⟨[("vm-1-0-0", claimResolved)], [], [], []⟩

/-- The backend confirming the VM is fully gone. -/
def oGone : VirtualMachine := ⟨"vm-1", "", "", VirtualMachineState.notFound, []⟩

/-- An active machine placed in zone z1. -/
def machineInZ1 : Machine := ⟨"m-1", some "z1", true⟩

/-- A failure domain owned exactly by zone z1. -/
def fdOwnedByZ1 : VSphereFailureDomain :=
  ⟨"fd-1", [⟨infraAPIVersion, "VSphereDeploymentZone", "z1", ""⟩]⟩

/-- A zone client holding `fdOwnedByZ1` and one blocking machine. -/
def zoneClientBlocked : ZoneClient :=
  ⟨[machineInZ1], none, some fdOwnedByZ1, none, none, none⟩

/-- The same client without the blocking machine. -/
def zoneClientFree : ZoneClient :=
  ⟨[], none, some fdOwnedByZ1, none, none, none⟩

/-- Any claim stored under the given name carries no claim-protection
finalizer. -/
def goodClaimAt (client : ClaimClient) (n : String) : Prop :=
  ∀ c, lookupStore client.store n = some c → IPAddressClaimFinalizer ∉ c.finalizers

/-- A stored claim still carrying the claim-protection finalizer. -/
def claimHeld : IPAddressClaim :=
  { claimResolved with finalizers := [IPAddressClaimFinalizer] }

/-- A client holding `claimHeld` for the first pool pair; the second claim is
already gone. -/
def clientC9 : ClaimClient := ⟨[("vm-1-0-0", claimHeld)], [], [], []⟩

/-- A trivial SetSummary body, used to instantiate the library parameter on
concrete inputs. -/
def trivSummary : List Condition → BCondition :=
  fun _ => ⟨true, "", ConditionSeverity.sevNone, ""⟩

/-- Collaborator outcomes for a fully healthy reconcile environment. -/
def depsHappy : VMReconcileDeps :=
  { sessionError := none,
    ownerVSphereMachineFound := true,
    vsphereClusterFound := true,
    ownerMachineFound := true,
    machineFailureDomain := none,
    failureDomainLookupError := none,
    clusterFound := true,
    clusterPaused := false,
    nodeAntiAffinityEnabled := false,
    clusterModuleInfoError := none,
    claimClient := emptyClaimClient,
    aggregateFn := trivAgg,
    summaryFn := trivSummary,
    reconcileVMResult := Except.ok oReadyOtherUUID,
    destroyResult := Except.ok (RResult.zero, oGone),
    deleteNodeResult := (RResult.zero, none) }

/-- A freshly created VM: non-deleting, no finalizers, no conditions. -/
def vmFresh : VSphereVM :=
  { name := "vm-1", ns := "default", uid := "u-1",
    labels := [(clusterNameLabel, "c1")], finalizers := [],
    deletionTimestampIsZero := true,
    spec := { biosUUID := "", network := [⟨true, false, [], []⟩] },
    status := { vmRef := "", ready := false, network := [], addresses := [],
                failureReason := none, failureMessage := none },
    conditions := [] }

/-- A VM identical to `vmFresh` but already carrying the finalizer. -/
def vmFreshFin : VSphereVM := { vmFresh with finalizers := [VMFinalizer] }

/-! ## Theorems -/

theorem getCondition_setCondition_self (l : List Condition) (c : Condition) :
    getCondition (setCondition l c) c.condType = some c := by
  induction l with
  | nil => simp [setCondition, getCondition]
  | cons d rest ih =>
    by_cases h : d.condType = c.condType
    · simp [setCondition, getCondition, h]
    · simp [setCondition, getCondition, h, ih]

theorem getCondition_setCondition_ne (l : List Condition) (c : Condition) (t : String)
    (h : t ≠ c.condType) :
    getCondition (setCondition l c) t = getCondition l t := by
  have h' : ¬ c.condType = t := fun hc => h hc.symm
  induction l with
  | nil => simp [setCondition, getCondition, h']
  | cons d rest ih =>
    by_cases hd : d.condType = c.condType
    · have hdt : ¬ d.condType = t := fun ht => h' (hd ▸ ht)
      simp [setCondition, getCondition, hd, h', hdt]
    · simp [setCondition, getCondition, hd, ih]

theorem mem_removeFinalizer_iff (l : List String) (f x : String) :
    x ∈ removeFinalizer l f ↔ x ∈ l ∧ x ≠ f := by
  simp [removeFinalizer]

theorem getLabel_setLabel_ne (l : List (String × String)) (n v : String) (m : String)
    (h : m ≠ n) : getLabel (setLabel l n v) m = getLabel l m := by
  have h' : ¬ n = m := fun hc => h hc.symm
  induction l with
  | nil => simp [setLabel, getLabel, h']
  | cons kv rest ih =>
    obtain ⟨k, w⟩ := kv
    by_cases hk : k = n
    · have hkm : ¬ k = m := fun hm => h' (hk ▸ hm)
      simp [setLabel, getLabel, hk, h', hkm]
    · simp [setLabel, getLabel, hk, ih]

theorem lookupStore_putStore (s : List (String × IPAddressClaim)) (n : String)
    (c : IPAddressClaim) (m : String) :
    lookupStore (putStore s n c) m = if n = m then some c else lookupStore s m := by
  induction s with
  | nil =>
    by_cases h : n = m <;> simp [putStore, lookupStore, h]
  | cons kv rest ih =>
    obtain ⟨k, v⟩ := kv
    by_cases hk : k = n
    · by_cases hm : n = m
      · simp [putStore, lookupStore, hk, hm]
      · have hkm : ¬ k = m := fun h => hm (hk ▸ h)
        simp [putStore, lookupStore, hk, hm, hkm]
    · by_cases hkm : k = m
      · have hm : ¬ n = m := fun h => hk (hkm ▸ h.symm)
        have hm' : ¬ m = n := fun h => hm h.symm
        simp [putStore, lookupStore, hk, hkm, hm, hm']
      · simp [putStore, lookupStore, hk, hkm, ih]

theorem setVMCondition_frame (vm : VSphereVM) (t : String) (b : BCondition) :
    (setVMCondition vm t b).spec = vm.spec ∧
    (setVMCondition vm t b).status = vm.status ∧
    (setVMCondition vm t b).finalizers = vm.finalizers ∧
    (setVMCondition vm t b).name = vm.name ∧
    (setVMCondition vm t b).ns = vm.ns ∧
    (setVMCondition vm t b).uid = vm.uid ∧
    (setVMCondition vm t b).labels = vm.labels ∧
    (setVMCondition vm t b).deletionTimestampIsZero = vm.deletionTimestampIsZero := by
  simp [setVMCondition]

theorem getCondition_setVMCondition_ne (vm : VSphereVM) (t : String) (b : BCondition)
    (t' : String) (h : t' ≠ t) :
    getCondition (setVMCondition vm t b).conditions t' = getCondition vm.conditions t' := by
  simp [setVMCondition]
  exact getCondition_setCondition_ne vm.conditions _ t' h

@[simp] theorem setVMCondition_spec (vm : VSphereVM) (t : String) (b : BCondition) :
    (setVMCondition vm t b).spec = vm.spec := rfl

@[simp] theorem setVMCondition_status (vm : VSphereVM) (t : String) (b : BCondition) :
    (setVMCondition vm t b).status = vm.status := rfl

@[simp] theorem setVMCondition_finalizers (vm : VSphereVM) (t : String) (b : BCondition) :
    (setVMCondition vm t b).finalizers = vm.finalizers := rfl

@[simp] theorem setVMCondition_name (vm : VSphereVM) (t : String) (b : BCondition) :
    (setVMCondition vm t b).name = vm.name := rfl

@[simp] theorem setVMCondition_ns (vm : VSphereVM) (t : String) (b : BCondition) :
    (setVMCondition vm t b).ns = vm.ns := rfl

@[simp] theorem setVMCondition_uid (vm : VSphereVM) (t : String) (b : BCondition) :
    (setVMCondition vm t b).uid = vm.uid := rfl

@[simp] theorem setVMCondition_labels (vm : VSphereVM) (t : String) (b : BCondition) :
    (setVMCondition vm t b).labels = vm.labels := rfl

@[simp] theorem setVMCondition_dtz (vm : VSphereVM) (t : String) (b : BCondition) :
    (setVMCondition vm t b).deletionTimestampIsZero = vm.deletionTimestampIsZero := rfl

theorem mem_addFinalizer_self (l : List String) (f : String) : f ∈ addFinalizer l f := by
  unfold addFinalizer
  split
  · next h => simpa using h
  · simp

theorem vmFrameP_refl (vm : VSphereVM) : vmFrameP vm vm :=
  ⟨rfl, rfl, rfl, rfl, fun _ _ => rfl⟩

theorem vmFrameP_setIP (vm : VSphereVM) (b : BCondition) :
    vmFrameP vm (setVMCondition vm IPAddressClaimedCondition b) := by
  refine ⟨rfl, rfl, rfl, rfl, fun t ht => ?_⟩
  exact getCondition_setVMCondition_ne vm IPAddressClaimedCondition b t ht

theorem reconcileIPAddressClaims_frame (agg : List IPAddressClaim → BCondition)
    (client : ClaimClient) (vm : VSphereVM) :
    vmFrameP vm (reconcileIPAddressClaims agg client vm).1 := by
  unfold reconcileIPAddressClaims
  rcases claimLoopResult client vm with ⟨st, e⟩
  cases e with
  | some e => exact vmFrameP_refl vm
  | none =>
    simp only
    split
    · exact vmFrameP_setIP vm _
    · split
      · exact vmFrameP_setIP vm _
      · split
        · exact vmFrameP_setIP vm _
        · split
          · exact vmFrameP_setIP vm _
          · split
            · exact vmFrameP_setIP vm _
            · exact vmFrameP_refl vm

/-- C7 counterexample: the claim that an update event whose old and new
cluster objects are both unpaused produces no enqueued keys is false: the
update predicate only consults the new object, so an unpaused-to-unpaused
update still emits the keys of every VM labelled for the cluster. -/
theorem c7_update_filter_counterexample :
    isPaused clusterUnpaused = false ∧
    clusterWatchUpdateKeys [vmLabelled] clusterUnpaused clusterUnpaused =
      [("default", "vm-1")] ∧
    clusterWatchUpdateKeys [vmLabelled] clusterUnpaused clusterUnpaused ≠ [] := by
  refine ⟨rfl, by decide, by decide⟩

/-- C7 (amended): the cluster-watch update filter emits the label-matched
reconcile keys exactly when the new cluster object is unpaused; the old
object's pause state is never consulted, so a paused-to-unpaused transition
and an unpaused-to-unpaused update emit the same keys, and a paused new
cluster emits none. -/
theorem c7_update_filter (vms : List VSphereVM) (oldA oldB newC : Cluster) :
    clusterWatchUpdateKeys vms oldA newC = clusterWatchUpdateKeys vms oldB newC ∧
    (isPaused newC = false →
      clusterWatchUpdateKeys vms oldA newC = clusterToVSphereVMs vms newC.name) ∧
    (isPaused newC = true → clusterWatchUpdateKeys vms oldA newC = []) := by
  by_cases h : isPaused newC <;>
    simp [clusterWatchUpdateKeys, clusterUpdatePred, h]

/-- Witness for c7_update_filter at a concrete paused/unpaused input. -/
theorem c7_update_filter_witness :
    clusterWatchUpdateKeys [vmLabelled] ⟨"c1", true, false⟩ clusterUnpaused =
      clusterWatchUpdateKeys [vmLabelled] clusterUnpaused clusterUnpaused ∧
    clusterWatchUpdateKeys [vmLabelled] ⟨"c1", true, false⟩ clusterUnpaused =
      clusterToVSphereVMs [vmLabelled] clusterUnpaused.name := by
  have h := c7_update_filter [vmLabelled] ⟨"c1", true, false⟩ clusterUnpaused clusterUnpaused
  exact ⟨h.1, h.2.1 (by decide)⟩

/-- C8: create-or-patch of an existing address claim applies exactly the
mutate function, which touches only owner references, the claim finalizer,
the cluster-name label and the pool reference; the allocator-owned resolved
address reference and the conditions — and the claim's identity and every
other label — are unchanged. -/
theorem c8_createOrPatch_frame (client : ClaimClient) (vm : VSphereVM) (name : String)
    (poolRef : PoolRef) (c0 : IPAddressClaim)
    (hFound : lookupStore client.store name = some c0)
    (hNoErr : name ∉ client.patchErrors) :
    createOrPatchIPAddressClaim client vm name poolRef =
      Except.ok
        ({ client with store := putStore client.store name (mutateIPAddressClaim vm poolRef c0) },
         mutateIPAddressClaim vm poolRef c0, false) ∧
    (mutateIPAddressClaim vm poolRef c0).addressRefName = c0.addressRefName ∧
    (mutateIPAddressClaim vm poolRef c0).conditions = c0.conditions ∧
    (mutateIPAddressClaim vm poolRef c0).name = c0.name ∧
    (mutateIPAddressClaim vm poolRef c0).ns = c0.ns ∧
    (mutateIPAddressClaim vm poolRef c0).poolRef = poolRef ∧
    IPAddressClaimFinalizer ∈ (mutateIPAddressClaim vm poolRef c0).finalizers ∧
    ∀ k, k ≠ clusterNameLabel →
      getLabel (mutateIPAddressClaim vm poolRef c0).labels k = getLabel c0.labels k := by
  refine ⟨?_, rfl, rfl, rfl, rfl, rfl, ?_, ?_⟩
  · simp [createOrPatchIPAddressClaim, hFound, hNoErr]
  · exact mem_addFinalizer_self c0.finalizers IPAddressClaimFinalizer
  · intro k hk
    exact getLabel_setLabel_ne c0.labels clusterNameLabel _ k hk

/-- Witness for c8_createOrPatch_frame at a concrete stored claim. -/
theorem c8_createOrPatch_frame_witness :
    (mutateIPAddressClaim vmLabelled (⟨"ipam.x", "IPPool", "pool-1"⟩ : PoolRef)
      claimResolved).addressRefName = claimResolved.addressRefName ∧
    getLabel (mutateIPAddressClaim vmLabelled (⟨"ipam.x", "IPPool", "pool-1"⟩ : PoolRef)
      claimResolved).labels "team" = getLabel claimResolved.labels "team" := by
  have h := c8_createOrPatch_frame clientWithClaim vmLabelled "vm-1-0-0"
    ⟨"ipam.x", "IPPool", "pool-1"⟩ claimResolved (by decide) (by decide)
  exact ⟨h.2.1, h.2.2.2.2.2.2.2 "team" (by decide)⟩

/-- C10: on the zone delete path, when no active machine references the zone
and the failure domain no longer exists (not-found), the finalizer is removed
and the reconcile succeeds. -/
theorem c10_zone_delete_fd_notfound (client : ZoneClient) (zone : VSphereDeploymentZone)
    (hList : client.machinesListError = none)
    (hBlock : machinesUsingDeploymentZone client.machines zone.name = [])
    (hGet : client.fdGetError = none)
    (hfd : client.fd = none) :
    (zoneReconcileDelete client zone).error = none ∧
    (zoneReconcileDelete client zone).zone = removeZoneFinalizer zone ∧
    DeploymentZoneFinalizer ∉ (zoneReconcileDelete client zone).zone.finalizers := by
  have h : zoneReconcileDelete client zone = ⟨removeZoneFinalizer zone, none, false, none⟩ := by
    simp [zoneReconcileDelete, hList, hBlock, hGet, hfd]
  refine ⟨by simp [h], by simp [h], ?_⟩
  rw [h]
  simp [removeZoneFinalizer, mem_removeFinalizer_iff]

/-- Witness for c10_zone_delete_fd_notfound at a concrete zone. -/
theorem c10_zone_delete_fd_notfound_witness :
    (zoneReconcileDelete zoneClientNoFD zoneZ1).error = none ∧
    DeploymentZoneFinalizer ∉ (zoneReconcileDelete zoneClientNoFD zoneZ1).zone.finalizers := by
  have h := c10_zone_delete_fd_notfound zoneClientNoFD zoneZ1 rfl (by decide) rfl rfl
  exact ⟨h.1, h.2.2⟩

/-- C4: when the claim loop succeeded with no per-claim creation error and
not every claim exposes a Ready condition, the fallback over N total claims
with F fulfilled and C newly created sets the IPAddressClaimed condition to:
true when F=N; false with the claims-being-created reason and a "C/N" message
when F<N and C>0; false with the waiting reason and an "(N-F)/N" message when
F<N and C=0. -/
theorem c4_fallback_classification (agg : List IPAddressClaim → BCondition)
    (client : ClaimClient) (vm : VSphereVM) (st : ClaimLoopState)
    (hLoop : claimLoopResult client vm = (st, none))
    (hErr : st.errList = [])
    (hNotAll : st.claims.length ≠ st.totalClaims) :
    (st.claimsFulfilled = st.totalClaims →
      getCondition (reconcileIPAddressClaims agg client vm).1.conditions
          IPAddressClaimedCondition =
        some ⟨IPAddressClaimedCondition, true, "", ConditionSeverity.sevNone, ""⟩) ∧
    (st.claimsFulfilled < st.totalClaims → 0 < st.claimsCreated →
      getCondition (reconcileIPAddressClaims agg client vm).1.conditions
          IPAddressClaimedCondition =
        some ⟨IPAddressClaimedCondition, false, IPAddressClaimsBeingCreatedReason,
          ConditionSeverity.sevInfo,
          fractionMsg st.claimsCreated st.totalClaims " claims being created"⟩) ∧
    (st.claimsFulfilled < st.totalClaims → st.claimsCreated = 0 →
      getCondition (reconcileIPAddressClaims agg client vm).1.conditions
          IPAddressClaimedCondition =
        some ⟨IPAddressClaimedCondition, false, WaitingForIPAddressReason,
          ConditionSeverity.sevInfo,
          fractionMsg (st.totalClaims - st.claimsFulfilled) st.totalClaims
            " claims being processed"⟩) := by
  refine ⟨?_, ?_, ?_⟩
  · intro hF
    have h2 : st.totalClaims = st.claimsFulfilled := hF.symm
    simp only [reconcileIPAddressClaims, hLoop]
    rw [if_neg (by simp [hErr]), if_neg hNotAll, if_pos h2]
    exact getCondition_setCondition_self vm.conditions _
  · intro hF hC
    have h2 : ¬ st.totalClaims = st.claimsFulfilled := fun h => Nat.ne_of_lt hF h.symm
    simp only [reconcileIPAddressClaims, hLoop]
    rw [if_neg (by simp [hErr]), if_neg hNotAll, if_neg h2, if_pos ⟨hF, hC⟩]
    exact getCondition_setCondition_self vm.conditions _
  · intro hF hC0
    have h2 : ¬ st.totalClaims = st.claimsFulfilled := fun h => Nat.ne_of_lt hF h.symm
    have hNo2 : ¬ (st.claimsFulfilled < st.totalClaims ∧ st.claimsCreated > 0) :=
      fun h => absurd h.2 (by simp [hC0])
    simp only [reconcileIPAddressClaims, hLoop]
    rw [if_neg (by simp [hErr]), if_neg hNotAll, if_neg h2, if_neg hNo2, if_pos ⟨hF, hC0⟩]
    exact getCondition_setCondition_self vm.conditions _

/-- C2: when the backend reports Ready with an empty hardware id, the normal
path returns a hard error and makes no status progress: Status.Ready,
Status.VMRef, the network status, the address list, the spec hardware id and
the provisioned condition are all left as they were. -/
theorem c2_ready_empty_uuid_hard_error (agg : List IPAddressClaim → BCondition)
    (client : ClaimClient) (o : VirtualMachine) (vm : VSphereVM)
    (hFail : vm.status.failureReason = none)
    (hMsg : vm.status.failureMessage = none)
    (hWait : isWaitingForStaticIPAllocation vm = false)
    (hClaims : (reconcileIPAddressClaims agg client vm).2.2 = none)
    (hState : o.state = VirtualMachineState.ready)
    (hUUID : o.biosUUID = "") :
    (reconcileNormal agg client (Except.ok o) vm).2.2.2 =
      some "bios uuid is empty while VM is ready" ∧
    (reconcileNormal agg client (Except.ok o) vm).2.2.1 = RResult.zero ∧
    (reconcileNormal agg client (Except.ok o) vm).1.status.ready = vm.status.ready ∧
    (reconcileNormal agg client (Except.ok o) vm).1.status.vmRef = vm.status.vmRef ∧
    (reconcileNormal agg client (Except.ok o) vm).1.status.network = vm.status.network ∧
    (reconcileNormal agg client (Except.ok o) vm).1.status.addresses = vm.status.addresses ∧
    (reconcileNormal agg client (Except.ok o) vm).1.spec.biosUUID = vm.spec.biosUUID ∧
    getCondition (reconcileNormal agg client (Except.ok o) vm).1.conditions
        VMProvisionedCondition =
      getCondition vm.conditions VMProvisionedCondition := by
  have hframe := reconcileIPAddressClaims_frame agg client vm
  rcases hcl : reconcileIPAddressClaims agg client vm with ⟨vm1, c1, e⟩
  rw [hcl] at hframe hClaims
  have he : e = none := hClaims
  subst he
  obtain ⟨hspec, hstatus, -, -, hconds⟩ := hframe
  have hnorm : reconcileNormal agg client (Except.ok o) vm =
      (vm1, c1, RResult.zero, some "bios uuid is empty while VM is ready") := by
    unfold reconcileNormal
    rw [if_neg (by simp [hFail, hMsg]), if_neg (by simp [hWait]), hcl]
    simp [hState, hUUID]
  rw [hnorm]
  exact ⟨rfl, rfl, by rw [hstatus], by rw [hstatus], by rw [hstatus], by rw [hstatus],
    by rw [hspec], hconds VMProvisionedCondition (by decide)⟩

/-- Witness for c2_ready_empty_uuid_hard_error at a concrete VM. -/
theorem c2_ready_empty_uuid_hard_error_witness :
    (reconcileNormal trivAgg emptyClaimClient (Except.ok oReadyEmptyUUID) vmLabelled).2.2.2 =
      some "bios uuid is empty while VM is ready" ∧
    (reconcileNormal trivAgg emptyClaimClient (Except.ok oReadyEmptyUUID) vmLabelled).1.status.ready
      = false := by
  have h := c2_ready_empty_uuid_hard_error trivAgg emptyClaimClient oReadyEmptyUUID
    vmLabelled rfl rfl (by decide) (by decide) rfl rfl
  exact ⟨h.1, h.2.2.1.trans rfl⟩

/-- C1 counterexample: a VM whose spec hardware id already holds the
non-empty value "uuid-A" has it overwritten to "uuid-B" by a reconcile in
which the backend reports Ready with hardware id "uuid-B": the assignment is
unconditional for non-empty backend ids, so the value is not copied exactly
once. -/
theorem c1_biosUUID_counterexample :
    vmWithUUID.spec.biosUUID = "uuid-A" ∧
    vmWithUUID.spec.biosUUID ≠ "" ∧
    (reconcileNormal trivAgg emptyClaimClient (Except.ok oReadyOtherUUID)
        vmWithUUID).1.spec.biosUUID = "uuid-B" ∧
    (reconcileNormal trivAgg emptyClaimClient (Except.ok oReadyOtherUUID)
        vmWithUUID).1.spec.biosUUID ≠ vmWithUUID.spec.biosUUID := by
  refine ⟨rfl, by decide, by decide, by decide⟩

/-- C1 (amended): the normal path never clears a populated spec hardware id —
the value stays non-empty, and the only way it changes is that a backend
response Ready with a non-empty hardware id overwrites it with that backend
id; in every other outcome it is untouched. -/
theorem c1_biosUUID_never_cleared (agg : List IPAddressClaim → BCondition)
    (client : ClaimClient) (rvm : Except String VirtualMachine) (vm : VSphereVM)
    (h : vm.spec.biosUUID ≠ "") :
    (reconcileNormal agg client rvm vm).1.spec.biosUUID ≠ "" ∧
    ((reconcileNormal agg client rvm vm).1.spec.biosUUID = vm.spec.biosUUID ∨
      ∃ o, rvm = Except.ok o ∧ o.state = VirtualMachineState.ready ∧
        o.biosUUID ≠ "" ∧
        (reconcileNormal agg client rvm vm).1.spec.biosUUID = o.biosUUID) := by
  have hframe := reconcileIPAddressClaims_frame agg client vm
  rcases hcl : reconcileIPAddressClaims agg client vm with ⟨vm1, c1, e⟩
  rw [hcl] at hframe
  obtain ⟨hspec, -, -, -, -⟩ := hframe
  have hspec' : vm1.spec = vm.spec := hspec
  have hspecU : vm1.spec.biosUUID = vm.spec.biosUUID := congrArg VSphereVMSpec.biosUUID hspec'
  have hkey : (reconcileNormal agg client rvm vm).1.spec.biosUUID = vm.spec.biosUUID ∨
      ∃ o, rvm = Except.ok o ∧ o.state = VirtualMachineState.ready ∧
        o.biosUUID ≠ "" ∧
        (reconcileNormal agg client rvm vm).1.spec.biosUUID = o.biosUUID := by
    by_cases hfail : (vm.status.failureReason.isSome || vm.status.failureMessage.isSome) = true
    · have hred : reconcileNormal agg client rvm vm = (vm, client, RResult.zero, none) := by
        unfold reconcileNormal; rw [if_pos hfail]
      left; rw [hred]
    · by_cases hwait : isWaitingForStaticIPAllocation vm = true
      · have hred : reconcileNormal agg client rvm vm =
            (markFalseVM vm VMProvisionedCondition WaitingForStaticIPAllocationReason
              ConditionSeverity.sevInfo "", client, RResult.zero, none) := by
          unfold reconcileNormal; rw [if_neg hfail, if_pos hwait]
        left; rw [hred]; rfl
      · cases e with
        | some err =>
          have hred : reconcileNormal agg client rvm vm =
              (vm1, c1, RResult.zero, some err) := by
            unfold reconcileNormal; rw [if_neg hfail, if_neg hwait, hcl]
          left; rw [hred]; exact hspecU
        | none =>
          cases rvm with
          | error msg =>
            have hred : reconcileNormal agg client (Except.error msg) vm =
                (vm1, c1, RResult.zero, some ("failed to reconcile VM: " ++ msg)) := by
              unfold reconcileNormal; rw [if_neg hfail, if_neg hwait, hcl]
            left; rw [hred]; exact hspecU
          | ok o =>
            by_cases hstate : o.state = VirtualMachineState.ready
            · by_cases huuid : o.biosUUID = ""
              · have hred : reconcileNormal agg client (Except.ok o) vm =
                    (vm1, c1, RResult.zero, some "bios uuid is empty while VM is ready") := by
                  unfold reconcileNormal
                  rw [if_neg hfail, if_neg hwait, hcl]
                  simp [hstate, huuid]
                left; rw [hred]; exact hspecU
              · right
                refine ⟨o, rfl, hstate, huuid, ?_⟩
                unfold reconcileNormal
                rw [if_neg hfail, if_neg hwait, hcl]
                simp only [hstate, huuid, ne_eq, not_true_eq_false, if_false,
                  not_false_eq_true, if_true, reduceIte]
                split <;> split <;> rfl
            · have hred : reconcileNormal agg client (Except.ok o) vm =
                  (vm1, c1, RResult.zero, none) := by
                unfold reconcileNormal
                rw [if_neg hfail, if_neg hwait, hcl]
                simp [hstate]
              left; rw [hred]; exact hspecU
  refine ⟨?_, hkey⟩
  rcases hkey with hk | ⟨o, -, -, hne, hk⟩
  · rw [hk]; exact h
  · rw [hk]; exact hne

/-- Witness for c1_biosUUID_never_cleared at a concrete VM with a populated
hardware id. -/
theorem c1_biosUUID_never_cleared_witness :
    (reconcileNormal trivAgg emptyClaimClient (Except.ok oReadyOtherUUID)
        vmWithUUID).1.spec.biosUUID ≠ "" := by
  have h := c1_biosUUID_never_cleared trivAgg emptyClaimClient
    (Except.ok oReadyOtherUUID) vmWithUUID (by decide)
  exact h.1

/-- Witness for c4_fallback_classification: two claims, one fulfilled, one
created this cycle, so the condition is false with the 1/2 being-created
message. -/
theorem c4_fallback_classification_witness :
    getCondition (reconcileIPAddressClaims trivAgg clientC4 vmPools).1.conditions
        IPAddressClaimedCondition =
      some ⟨IPAddressClaimedCondition, false, IPAddressClaimsBeingCreatedReason,
        ConditionSeverity.sevInfo, "1/2 claims being created"⟩ := by
  have h := c4_fallback_classification trivAgg clientC4 vmPools
    (claimLoopResult clientC4 vmPools).1 (by decide) (by decide) (by decide)
  exact h.2.1 (by decide) (by decide)

/-- C5: on the delete path, the VM finalizer is removed only in a reconcile
where DestroyVM succeeded, signalled no requeue, and reported the VM state as
NotFound; consequently it is never removed while the observed state is
Provisioning or Ready, and never when DestroyVM errors. -/
theorem c5_finalizer_removed_only_when_notfound
    (destroyResult : Except String (RResult × VirtualMachine))
    (deleteNodeResult : RResult × Option String) (client : ClaimClient)
    (vm : VSphereVM)
    (hIn : VMFinalizer ∈ vm.finalizers)
    (hOut : VMFinalizer ∉
      (reconcileDelete destroyResult deleteNodeResult client vm).1.finalizers) :
    ∃ r o, destroyResult = Except.ok (r, o) ∧ r.isZero = true ∧
      o.state = VirtualMachineState.notFound := by
  cases destroyResult with
  | error e =>
    simp only [reconcileDelete, markFalseVM, setVMCondition_finalizers] at hOut
    exact absurd hIn hOut
  | ok p =>
    rcases p with ⟨r, o⟩
    by_cases hrz : r.isZero = true
    · by_cases hstate : o.state = VirtualMachineState.notFound
      · exact ⟨r, o, rfl, hrz, hstate⟩
      · simp only [reconcileDelete] at hOut
        simp [hrz, hstate, markFalseVM] at hOut
        exact absurd hIn hOut
    · simp only [reconcileDelete] at hOut
      simp [hrz, markFalseVM] at hOut
      exact absurd hIn hOut

/-- Witness for c5_finalizer_removed_only_when_notfound: a destroy reconcile
that observes NotFound with no requeue does remove the finalizer. -/
theorem c5_finalizer_removed_only_when_notfound_witness :
    VMFinalizer ∉
      (reconcileDelete (Except.ok (RResult.zero, oGone)) (RResult.zero, none)
        emptyClaimClient vmWithUUID).1.finalizers ∧
    ∃ r o, (Except.ok (RResult.zero, oGone) :
        Except String (RResult × VirtualMachine)) = Except.ok (r, o) ∧
      r.isZero = true ∧ o.state = VirtualMachineState.notFound := by
  refine ⟨by decide, ?_⟩
  exact c5_finalizer_removed_only_when_notfound (Except.ok (RResult.zero, oGone))
    (RResult.zero, none) emptyClaimClient vmWithUUID (by decide) (by decide)

/-- C6: deleting a zone referenced by at least one active machine fails with
an error naming the blocking machines and changes nothing (in particular the
finalizer stays); deleting an unreferenced zone succeeds, removes the zone's
finalizer, removes the zone's owner-reference from the shared failure domain,
and physically deletes the failure domain exactly when its owner-reference
set becomes empty. -/
theorem c6_zone_delete_guard (client : ZoneClient) (zone : VSphereDeploymentZone)
    (fd0 : VSphereFailureDomain)
    (hList : client.machinesListError = none)
    (hGet : client.fdGetError = none)
    (hPatch : client.fdPatchError = none)
    (hDel : client.fdDeleteError = none)
    (hfd : client.fd = some fd0) :
    (machinesUsingDeploymentZone client.machines zone.name ≠ [] →
      (zoneReconcileDelete client zone).error =
        some (ZoneDeleteError.machinesInUse zone.name
          ((machinesUsingDeploymentZone client.machines zone.name).map Machine.name)) ∧
      (zoneReconcileDelete client zone).zone = zone ∧
      (zoneReconcileDelete client zone).fd = some fd0 ∧
      (zoneReconcileDelete client zone).fdDeleted = false) ∧
    (machinesUsingDeploymentZone client.machines zone.name = [] →
      (zoneReconcileDelete client zone).error = none ∧
      DeploymentZoneFinalizer ∉ (zoneReconcileDelete client zone).zone.finalizers ∧
      ((zoneReconcileDelete client zone).fdDeleted = true ↔
        removeOwnerRef fd0.ownerReferences (zoneOwnerRef zone) = []) ∧
      (removeOwnerRef fd0.ownerReferences (zoneOwnerRef zone) ≠ [] →
        (zoneReconcileDelete client zone).fd =
          some { fd0 with
            ownerReferences := removeOwnerRef fd0.ownerReferences (zoneOwnerRef zone) })) := by
  constructor
  · intro hBlock
    have hred : zoneReconcileDelete client zone =
        ⟨zone, client.fd, false,
          some (ZoneDeleteError.machinesInUse zone.name
            ((machinesUsingDeploymentZone client.machines zone.name).map Machine.name))⟩ := by
      unfold zoneReconcileDelete
      rw [hList]
      rw [if_pos hBlock]
    rw [hred, hfd]
    exact ⟨rfl, rfl, rfl, rfl⟩
  · intro hBlock
    by_cases hEmpty : removeOwnerRef fd0.ownerReferences (zoneOwnerRef zone) = []
    · have hred : zoneReconcileDelete client zone =
          ⟨removeZoneFinalizer zone, none, true, none⟩ := by
        unfold zoneReconcileDelete
        rw [hList]
        rw [if_neg (by simp [hBlock])]
        simp [hGet, hfd, hPatch, hDel, hEmpty]
      rw [hred]
      refine ⟨rfl, ?_, by simp [hEmpty], fun hc => absurd hEmpty hc⟩
      simp [removeZoneFinalizer, mem_removeFinalizer_iff]
    · have hred : zoneReconcileDelete client zone =
          ⟨removeZoneFinalizer zone,
            some { fd0 with
              ownerReferences := removeOwnerRef fd0.ownerReferences (zoneOwnerRef zone) },
            false, none⟩ := by
        unfold zoneReconcileDelete
        rw [hList]
        rw [if_neg (by simp [hBlock])]
        simp [hGet, hfd, hPatch, hEmpty]
      rw [hred]
      refine ⟨rfl, ?_, by simp [hEmpty], fun _ => rfl⟩
      simp [removeZoneFinalizer, mem_removeFinalizer_iff]

/-- Witness for c6_zone_delete_guard: the blocked deletion errors naming m-1
and keeps the finalizer; the unblocked deletion succeeds and deletes the now
owner-less failure domain. -/
theorem c6_zone_delete_guard_witness :
    ((zoneReconcileDelete zoneClientBlocked zoneZ1).error =
      some (ZoneDeleteError.machinesInUse "z1" ["m-1"]) ∧
     (zoneReconcileDelete zoneClientBlocked zoneZ1).zone = zoneZ1) ∧
    ((zoneReconcileDelete zoneClientFree zoneZ1).error = none ∧
     (zoneReconcileDelete zoneClientFree zoneZ1).fdDeleted = true) := by
  have hB := c6_zone_delete_guard zoneClientBlocked zoneZ1 fdOwnedByZ1 rfl rfl rfl rfl rfl
  have hF := c6_zone_delete_guard zoneClientFree zoneZ1 fdOwnedByZ1 rfl rfl rfl rfl rfl
  have h1 := hB.1 (by decide)
  have h2 := hF.2 (by decide)
  exact ⟨⟨h1.1.trans (by decide), h1.2.1⟩, ⟨h2.1, h2.2.2.1.mpr (by decide)⟩⟩

theorem deleteClaimsLoop_getErrors (ns : List String) (client : ClaimClient) :
    (deleteClaimsLoop client ns).1.getErrors = client.getErrors := by
  induction ns generalizing client with
  | nil => rfl
  | cons name rest ih =>
    unfold deleteClaimsLoop
    by_cases hg : name ∈ client.getErrors
    · rw [if_pos hg]
    · rw [if_neg hg]
      cases hl : lookupStore client.store name with
      | none => exact ih client
      | some claim =>
        simp only []
        by_cases hf : IPAddressClaimFinalizer ∈ claim.finalizers
        · rw [if_pos hf]
          by_cases hu : name ∈ client.updateErrors
          · rw [if_pos hu]
          · rw [if_neg hu]
            exact ih _
        · rw [if_neg hf]
          exact ih client

theorem deleteClaimsLoop_good_mono (ns : List String) (client : ClaimClient) (n : String)
    (h : goodClaimAt client n) : goodClaimAt (deleteClaimsLoop client ns).1 n := by
  induction ns generalizing client with
  | nil => exact h
  | cons name rest ih =>
    unfold deleteClaimsLoop
    by_cases hg : name ∈ client.getErrors
    · rw [if_pos hg]; exact h
    · rw [if_neg hg]
      cases hl : lookupStore client.store name with
      | none => exact ih client h
      | some claim =>
        simp only []
        by_cases hf : IPAddressClaimFinalizer ∈ claim.finalizers
        · rw [if_pos hf]
          by_cases hu : name ∈ client.updateErrors
          · rw [if_pos hu]; exact h
          · rw [if_neg hu]
            refine ih _ ?_
            intro c hc
            simp only [lookupStore_putStore] at hc
            by_cases hnn : name = n
            · rw [if_pos hnn] at hc
              cases hc
              simp [mem_removeFinalizer_iff]
            · rw [if_neg hnn] at hc
              exact h c hc
        · rw [if_neg hf]; exact ih client h

theorem deleteClaimsLoop_success_inv (ns : List String) (client : ClaimClient)
    (hsucc : (deleteClaimsLoop client ns).2.2 = none) :
    ∀ n ∈ ns, n ∉ client.getErrors ∧ goodClaimAt (deleteClaimsLoop client ns).1 n := by
  induction ns generalizing client with
  | nil => intro n hn; exact absurd hn (List.not_mem_nil n)
  | cons name rest ih =>
    intro n hn
    unfold deleteClaimsLoop at hsucc ⊢
    by_cases hg : name ∈ client.getErrors
    · rw [if_pos hg] at hsucc; exact absurd hsucc (by simp)
    · rw [if_neg hg] at hsucc ⊢
      cases hl : lookupStore client.store name with
      | none =>
        rw [hl] at hsucc
        simp only [] at hsucc ⊢
        rcases List.mem_cons.mp hn with hn1 | hn2
        · subst hn1
          exact ⟨hg, deleteClaimsLoop_good_mono rest client n
            (fun c hc => by rw [hl] at hc; cases hc)⟩
        · exact ih client hsucc n hn2
      | some claim =>
        rw [hl] at hsucc
        simp only [] at hsucc ⊢
        by_cases hf : IPAddressClaimFinalizer ∈ claim.finalizers
        · rw [if_pos hf] at hsucc ⊢
          by_cases hu : name ∈ client.updateErrors
          · rw [if_pos hu] at hsucc; exact absurd hsucc (by simp)
          · rw [if_neg hu] at hsucc ⊢
            rcases List.mem_cons.mp hn with hn1 | hn2
            · subst hn1
              refine ⟨hg, ?_⟩
              apply deleteClaimsLoop_good_mono
              intro c hc
              simp only [lookupStore_putStore] at hc
              cases hc
              simp [mem_removeFinalizer_iff]
            · have hrec := ih _ hsucc n hn2
              exact ⟨hrec.1, hrec.2⟩
        · rw [if_neg hf] at hsucc ⊢
          rcases List.mem_cons.mp hn with hn1 | hn2
          · subst hn1
            exact ⟨hg, deleteClaimsLoop_good_mono rest client n
              (fun c hc => by rw [hl] at hc; cases hc; exact hf)⟩
          · exact ih client hsucc n hn2

theorem deleteClaimsLoop_noop (ns : List String) (client : ClaimClient)
    (h : ∀ n ∈ ns, n ∉ client.getErrors ∧ goodClaimAt client n) :
    deleteClaimsLoop client ns = (client, [], none) := by
  induction ns generalizing client with
  | nil => rfl
  | cons name rest ih =>
    have hname := h name (List.mem_cons_self name rest)
    unfold deleteClaimsLoop
    rw [if_neg hname.1]
    cases hl : lookupStore client.store name with
    | none => exact ih client (fun n hn => h n (List.mem_cons_of_mem name hn))
    | some claim =>
      simp only []
      rw [if_neg (hname.2 claim hl)]
      exact ih client (fun n hn => h n (List.mem_cons_of_mem name hn))

/-- C9: releasing the address claims is repeat-safe: after a successful
release pass, running the release again performs no update write, changes
nothing, and succeeds. -/
theorem c9_release_claims_repeat_safe (client : ClaimClient) (vm : VSphereVM)
    (h : (deleteIPAddressClaims client vm).2.2 = none) :
    deleteIPAddressClaims (deleteIPAddressClaims client vm).1 vm =
      ((deleteIPAddressClaims client vm).1, [], none) := by
  unfold deleteIPAddressClaims at h ⊢
  apply deleteClaimsLoop_noop
  intro n hn
  have hinv := deleteClaimsLoop_success_inv (claimNames vm) client h n hn
  refine ⟨?_, hinv.2⟩
  rw [deleteClaimsLoop_getErrors]
  exact hinv.1

/-- Witness for c9_release_claims_repeat_safe: the first pass removes one
finalizer and succeeds; the second pass writes nothing. -/
theorem c9_release_claims_repeat_safe_witness :
    (deleteIPAddressClaims clientC9 vmPools).2.2 = none ∧
    deleteIPAddressClaims (deleteIPAddressClaims clientC9 vmPools).1 vmPools =
      ((deleteIPAddressClaims clientC9 vmPools).1, [], none) := by
  refine ⟨by decide, ?_⟩
  exact c9_release_claims_repeat_safe clientC9 vmPools (by decide)

/-- C3 counterexample: the first reconcile of a fresh, non-deleting VM does
add the finalizer and return success, but it is not the only mutation — the
same reconcile also writes conditions (the vCenter-available condition before
the finalizer gate, and the summary condition on the patch-on-exit), so the
persisted resource's conditions differ from the input's. -/
theorem c3_finalizer_first_counterexample :
    vmFresh.deletionTimestampIsZero = true ∧
    vmFresh.finalizers = [] ∧
    (Reconcile depsHappy (some vmFresh)).2.2.2 = none ∧
    (Reconcile depsHappy (some vmFresh)).2.2.1 = RResult.zero ∧
    ((Reconcile depsHappy (some vmFresh)).1.map
      (fun w => containsFinalizer w.finalizers VMFinalizer)) = some true ∧
    ((Reconcile depsHappy (some vmFresh)).1.map VSphereVM.conditions) ≠
      some vmFresh.conditions := by
  refine ⟨rfl, rfl, by decide, by decide, by decide, by decide⟩

/-- C3 (amended): with healthy collaborators, the first reconcile of a fresh,
non-deleting VM lacking the finalizer adds the finalizer and returns success,
leaving the spec, the status and all metadata untouched — but it additionally
updates conditions (the vCenter-available condition and the summary
condition), so the finalizer is not the sole mutation; a second reconcile of
a VM carrying the finalizer passes the gate and performs the remaining work
(dispatching through the reconcile step). -/
theorem c3_finalizer_first (deps : VMReconcileDeps) (vm0 : VSphereVM)
    (hSess : deps.sessionError = none)
    (hO1 : deps.ownerVSphereMachineFound = true)
    (hO2 : deps.vsphereClusterFound = true)
    (hO3 : deps.ownerMachineFound = true)
    (hFD : deps.machineFailureDomain = none)
    (hPause : deps.clusterPaused = false)
    (hDel : vm0.deletionTimestampIsZero = true)
    (hFin : containsFinalizer vm0.finalizers VMFinalizer = false) :
    (Reconcile deps (some vm0) =
      (some (applySummary deps.summaryFn
        { markTrueVM vm0 VCenterAvailableCondition with
          finalizers := addFinalizer vm0.finalizers VMFinalizer }),
       deps.claimClient, RResult.zero, none) ∧
     ∀ vmOut, (Reconcile deps (some vm0)).1 = some vmOut →
       vmOut.finalizers = vm0.finalizers ++ [VMFinalizer] ∧
       vmOut.spec = vm0.spec ∧ vmOut.status = vm0.status ∧
       vmOut.name = vm0.name ∧ vmOut.ns = vm0.ns ∧ vmOut.uid = vm0.uid ∧
       vmOut.labels = vm0.labels ∧
       vmOut.deletionTimestampIsZero = vm0.deletionTimestampIsZero) ∧
    (∀ vm1, containsFinalizer vm1.finalizers VMFinalizer = true →
      Reconcile deps (some vm1) =
        (some (applySummary deps.summaryFn
          (reconcileStep deps (markTrueVM vm1 VCenterAvailableCondition)).1),
         (reconcileStep deps (markTrueVM vm1 VCenterAvailableCondition)).2.1,
         (reconcileStep deps (markTrueVM vm1 VCenterAvailableCondition)).2.2.1,
         (reconcileStep deps (markTrueVM vm1 VCenterAvailableCondition)).2.2.2)) := by
  have hContains : vm0.finalizers.contains VMFinalizer = false := hFin
  have h1 : Reconcile deps (some vm0) =
      (some (applySummary deps.summaryFn
        { markTrueVM vm0 VCenterAvailableCondition with
          finalizers := addFinalizer vm0.finalizers VMFinalizer }),
       deps.claimClient, RResult.zero, none) := by
    unfold Reconcile
    rw [hSess]
    simp [hO1, hO2, hO3, hFD, hPause, hDel, hFin, markTrueVM]
  refine ⟨⟨h1, ?_⟩, ?_⟩
  · intro vmOut hvm
    rw [h1] at hvm
    have heq := Option.some.inj hvm
    subst heq
    refine ⟨?_, rfl, rfl, rfl, rfl, rfl, rfl, rfl⟩
    show addFinalizer vm0.finalizers VMFinalizer = vm0.finalizers ++ [VMFinalizer]
    unfold addFinalizer
    rw [if_neg (by rw [hContains]; simp)]
  · intro vm1 hfin1
    unfold Reconcile
    rw [hSess]
    simp [hO1, hO2, hO3, hFD, hPause, hfin1, markTrueVM]

/-- Witness for c3_finalizer_first at the concrete healthy environment. -/
theorem c3_finalizer_first_witness :
    Reconcile depsHappy (some vmFresh) =
      (some (applySummary depsHappy.summaryFn
        { markTrueVM vmFresh VCenterAvailableCondition with
          finalizers := addFinalizer vmFresh.finalizers VMFinalizer }),
       depsHappy.claimClient, RResult.zero, none) ∧
    Reconcile depsHappy (some vmFreshFin) =
      (some (applySummary depsHappy.summaryFn
        (reconcileStep depsHappy (markTrueVM vmFreshFin VCenterAvailableCondition)).1),
       (reconcileStep depsHappy (markTrueVM vmFreshFin VCenterAvailableCondition)).2.1,
       (reconcileStep depsHappy (markTrueVM vmFreshFin VCenterAvailableCondition)).2.2.1,
       (reconcileStep depsHappy (markTrueVM vmFreshFin VCenterAvailableCondition)).2.2.2) := by
  have h := c3_finalizer_first depsHappy vmFresh rfl rfl rfl rfl rfl rfl rfl (by decide)
  exact ⟨h.1.1, h.2 vmFreshFin (by decide)⟩

end CAPV

